import Mathlib

set_option maxRecDepth 100000

/-!
Verification development for the response-recovery parser of the synaflow
repository (`SimplifiedScientificQA._parse_response` and
`_extract_fields_with_regex` in `src/simplified_program.py`).

The Python code is shallowly embedded: strings are `String`/`List Char`,
Python dicts (insertion ordered) are association lists, Python numbers are
`ℚ` extended with the IEEE specials NaN, Infinity, -Infinity that Python's
`json` module and `float()` accept, and code that can raise returns
`Except String`.  The embedding collapses Python's int/float distinction
(both become `PyNum.fin`), models the ASCII part of `\s`, `\d` and
`str.strip()`'s whitespace set, and does not model digit-group underscores
in `float()` nor lone-surrogate `\uXXXX` escapes; none of the verified
properties depend on these corners.
-/

namespace Synaflow

/-- Python number as produced by `json.loads` / `float()`: a rational
(Python int or float collapsed) or one of the specials NaN, Infinity
and -Infinity that Python accepts by default (`allow_nan=True`). -/
inductive PyNum where
  | fin (q : ℚ)
  | nan
  | inf
  | ninf

/-- Python value resulting from `json.loads`: the JSON data model with
Python-dict objects represented as insertion-ordered association lists. -/
inductive Json where
  | null
  | bool (b : Bool)
  | num (n : PyNum)
  | str (s : String)
  | arr (xs : List Json)
  | obj (kvs : List (String × Json))

/-- Python `dict` (insertion ordered) with `Json` values. -/
abbrev Dict := List (String × Json)

/-- Python `d.get(k)` / `d[k]` lookup: first (unique) binding of the key. -/
def dGet : Dict → String → Option Json
  | [], _ => none
  | (k, v) :: rest, key => if k = key then some v else dGet rest key

/-- Python `d[k] = v`: replace the value in place if the key exists
(keeping its position), otherwise append the binding at the end. -/
def dSet : Dict → String → Json → Dict
  | [], key, v => [(key, v)]
  | (k, w) :: rest, key, v =>
      if k = key then (k, v) :: rest else (k, w) :: dSet rest key v

/-- Python `d.setdefault(k, v)`: insert `v` at the end only when the key is
absent; an existing binding (even to an empty/None value) is kept. -/
def dSetdefault (d : Dict) (key : String) (v : Json) : Dict :=
  match dGet d key with
  | some _ => d
  | none => d ++ [(key, v)]

/-- Whitespace recognized between JSON tokens by Python's `json` scanner. -/
def jsonWs (c : Char) : Bool :=
  c = ' ' || c = '\t' || c = '\n' || c = '\r'

/-- ASCII part of the character class `\s` of Python's `re` module, also
used for `str.strip()`. -/
def reWs (c : Char) : Bool :=
  c = ' ' || c = '\t' || c = '\n' || c = '\r' || c = '\x0b' || c = '\x0c'

/-- Python `str.strip()` (whitespace from both ends). -/
def pyStrip (cs : List Char) : List Char :=
  ((cs.dropWhile reWs).reverse.dropWhile reWs).reverse

/-- Does `pat` occur at the head of `cs`? -/
def leadsWith : List Char → List Char → Bool
  | [], _ => true
  | _ :: _, [] => false
  | p :: ps, c :: cs => p = c && leadsWith ps cs

/-- Index of the first occurrence of `pat` in `cs` (Python `str.find`,
`in`). -/
def findSub (pat : List Char) : List Char → Option Nat
  | [] => if pat.isEmpty then some 0 else none
  | c :: rest =>
      if leadsWith pat (c :: rest) then some 0
      else (findSub pat rest).map (· + 1)

/-- Python `pat in s`. -/
def hasSub (pat cs : List Char) : Bool :=
  (findSub pat cs).isSome

/-- Index of the first character satisfying `p`. -/
def charIdxFirst (p : Char → Bool) : List Char → Option Nat
  | [] => none
  | c :: rest =>
      if p c then some 0 else (charIdxFirst p rest).map (· + 1)

/-- Index of the last character satisfying `p`. -/
def charIdxLast (p : Char → Bool) (cs : List Char) : Option Nat :=
  (charIdxFirst p cs.reverse).map (fun k => cs.length - 1 - k)

/-- Result of `re.search(r'(\{.*\})', content, re.DOTALL)`: with a greedy
dot-matches-all body this is the span from the first `{` to the last `}`
when a `}` occurs after the first `{`, and no match otherwise. -/
def braceSpan (cs : List Char) : Option (List Char) :=
  match charIdxFirst (· = '\x7b') cs, charIdxLast (· = '\x7d') cs with
  | some i, some j => if i < j then some ((cs.drop i).take (j + 1 - i)) else none
  | _, _ => none

/-- Stage 1 of `_parse_response`: candidate extraction.  Mirrors the
Python code: a ```` ```json ````-tagged fence wins, then any fence, then
the greedy `{...}` span, then the whole content.  When a fence opener has
no closer, `str.find` returns -1 and the Python slice `content[a:-1]`
drops the final character; `List.take` reproduces that truncation. -/
def extractCandidate (cs : List Char) : List Char :=
  match findSub "```json".data cs with
  | some i =>
      let a := i + 7
      let tail := cs.drop a
      (match findSub "```".data tail with
       | some j => pyStrip (tail.take j)
       | none => pyStrip (tail.take (cs.length - 1 - a)))
  | none =>
    match findSub "```".data cs with
    | some i =>
        let a := i + 3
        let tail := cs.drop a
        (match findSub "```".data tail with
         | some j => pyStrip (tail.take j)
         | none => pyStrip (tail.take (cs.length - 1 - a)))
    | none =>
        match braceSpan cs with
        | some s => s
        | none => cs

/-- State machine for `re.sub(r'//.*', '', json_str)`: from each `//`
(scanned left to right, outside a previous match) everything up to but not
including the next newline is deleted. -/
def stripCommentsAux : Bool → List Char → List Char
  | _, [] => []
  | true, c :: rest =>
      if c = '\n' then c :: stripCommentsAux false rest
      else stripCommentsAux true rest
  | false, c :: rest =>
      match rest with
      | [] => [c]
      | c2 :: r2 =>
          if c = '/' && c2 = '/' then stripCommentsAux true r2
          else c :: stripCommentsAux false (c2 :: r2)

/-- Does the two-character sequence `//` occur anywhere in `cs`? -/
def hasDS : List Char → Bool
  | [] => false
  | c :: rest =>
      match rest with
      | [] => false
      | c2 :: _ => (c = '/' && c2 = '/') || hasDS rest

/-- Python `re.sub(r'//.*', '', json_str)`. -/
def stripComments (cs : List Char) : List Char :=
  stripCommentsAux false cs

/-- Lookahead for `,\s*C`: on success returns the rest after the closing
character `close`. -/
def wsThenClose (close : Char) : List Char → Option (List Char)
  | [] => none
  | c :: rest =>
      if c = close then some rest
      else if reWs c then wsThenClose close rest
      else none

/-- Fueled single pass of `re.sub(',\s*C', 'C', s)` for a closing
character `C` (non-overlapping, left to right, the whitespace and the
comma are deleted).  The fuel always exceeds the number of characters
consumed, so the `0` case is unreachable. -/
def commaFixF (close : Char) : Nat → List Char → List Char
  | 0, rest => rest
  | _ + 1, [] => []
  | fuel + 1, c :: rest =>
      if c = ',' then
        match wsThenClose close rest with
        | some rest2 => close :: commaFixF close fuel rest2
        | none => c :: commaFixF close fuel rest
      else c :: commaFixF close fuel rest

/-- Python `re.sub(r',\s*]', ']', s)` and `re.sub(r',\s*}', '}', s)`. -/
def commaFix (close : Char) (cs : List Char) : List Char :=
  commaFixF close cs.length cs

/-- Stage 2 of `_parse_response`: comment stripping, then trailing-comma
repair before `]`, then before `}` (the order of the three `re.sub`
calls in the source). -/
def repairCandidate (cs : List Char) : List Char :=
  commaFix '\x7d' (commaFix ']' (stripComments cs))

/-- Whitespace skip of the Python `json` scanner. -/
def skipWs (cs : List Char) : List Char :=
  cs.dropWhile jsonWs

/-- Value of a hexadecimal digit (code-point arithmetic: 48-57 are the
digits, 97-102 lowercase a-f, 65-70 uppercase A-F). -/
def hexVal (c : Char) : Option Nat :=
  let n := c.toNat
  if 48 ≤ n ∧ n ≤ 57 then some (n - 48)
  else if 97 ≤ n ∧ n ≤ 102 then some (n - 87)
  else if 65 ≤ n ∧ n ≤ 70 then some (n - 55)
  else none

/-- Single-character JSON string escapes. -/
def escSimple (c : Char) : Option Char :=
  if c = '"' then some '"'
  else if c = '\\' then some '\\'
  else if c = '/' then some '/'
  else if c = 'b' then some '\x08'
  else if c = 'f' then some '\x0c'
  else if c = 'n' then some '\n'
  else if c = 'r' then some '\r'
  else if c = 't' then some '\t'
  else none

/-- Body of a JSON string after the opening quote, as scanned by Python's
`json` in strict mode: unescaped control characters are an error, the
eight simple escapes and `\uXXXX` (with surrogate-pair combination) are
decoded.  A lone surrogate, which Python would keep, has no `Char`
representation and decodes to the default character here; no verified
property touches this corner. -/
def parseStrBodyF : Nat → List Char → Except String (List Char × List Char)
  | 0, _ => .error "Recursion limit exceeded"
  | fuel + 1, cs =>
    match cs with
    | [] => .error "Unterminated string starting at"
    | '"' :: rest => .ok ([], rest)
    | '\\' :: rest =>
      (match rest with
       | [] => .error "Unterminated string starting at"
       | 'u' :: a :: b :: c :: d :: r2 =>
         (match hexVal a, hexVal b, hexVal c, hexVal d with
          | some ha, some hb, some hc, some hd =>
            let n := ((ha * 16 + hb) * 16 + hc) * 16 + hd
            (match r2 with
             | '\\' :: 'u' :: a2 :: b2 :: c2 :: d2 :: r3 =>
               (match hexVal a2, hexVal b2, hexVal c2, hexVal d2 with
                | some ha2, some hb2, some hc2, some hd2 =>
                  let m := ((ha2 * 16 + hb2) * 16 + hc2) * 16 + hd2
                  if 0xD800 ≤ n && n ≤ 0xDBFF && 0xDC00 ≤ m && m ≤ 0xDFFF then
                    let code := 0x10000 + (n - 0xD800) * 0x400 + (m - 0xDC00)
                    (parseStrBodyF fuel r3).map (fun p => (Char.ofNat code :: p.1, p.2))
                  else
                    (parseStrBodyF fuel ('\\' :: 'u' :: a2 :: b2 :: c2 :: d2 :: r3)).map
                      (fun p => (Char.ofNat n :: p.1, p.2))
                | _, _, _, _ =>
                  (parseStrBodyF fuel ('\\' :: 'u' :: a2 :: b2 :: c2 :: d2 :: r3)).map
                    (fun p => (Char.ofNat n :: p.1, p.2)))
             | _ => (parseStrBodyF fuel r2).map (fun p => (Char.ofNat n :: p.1, p.2)))
          | _, _, _, _ => .error "Invalid hex escape")
       | e :: r2 =>
         (match escSimple e with
          | some ch => (parseStrBodyF fuel r2).map (fun p => (ch :: p.1, p.2))
          | none => .error "Invalid escape"))
    | c :: rest =>
        if c.toNat < 0x20 then .error "Invalid control character"
        else (parseStrBodyF fuel rest).map (fun p => (c :: p.1, p.2))

/-- Body of a JSON string, with fuel instantiated so that exhaustion is
unreachable (every recursive call consumes at least one character). -/
def parseStrBody (cs : List Char) : Except String (List Char × List Char) :=
  parseStrBodyF (cs.length + 1) cs

/-- Leading run of ASCII decimal digits. -/
def takeDigits (cs : List Char) : List Char × List Char :=
  (cs.takeWhile (fun c => c.isDigit), cs.dropWhile (fun c => c.isDigit))

/-- Numeric value of a digit run. -/
def digitsToNat (ds : List Char) : Nat :=
  ds.foldl (fun acc c => acc * 10 + (c.toNat - '0'.toNat)) 0

/-- Exact rational value of a JSON number literal with integer part `i`,
`k` fraction digits of value `f`, and exponent `e`. -/
def numVal (sign : Int) (i : Nat) (k : Nat) (f : Nat) (e : Int) : ℚ :=
  let mant : Int := sign * (Int.ofNat (i * 10 ^ k + f))
  if 0 ≤ e then
    mkRat (mant * Int.ofNat (10 ^ e.toNat)) (10 ^ k)
  else
    mkRat mant (10 ^ (k + (-e).toNat))

/-- Optional exponent part `([eE][-+]?\d+)?` of the JSON number grammar;
returns the exponent (0 when absent, per the regular expression the match
is simply dropped when no digit follows) and the rest. -/
def parseExpPart (cs : List Char) : Int × List Char :=
  match cs with
  | e :: rest =>
    if e = 'e' || e = 'E' then
      match rest with
      | '+' :: r2 =>
          let (ds, r3) := takeDigits r2
          if ds.isEmpty then (0, cs) else (Int.ofNat (digitsToNat ds), r3)
      | '-' :: r2 =>
          let (ds, r3) := takeDigits r2
          if ds.isEmpty then (0, cs) else (-(Int.ofNat (digitsToNat ds)), r3)
      | _ =>
          let (ds, r3) := takeDigits rest
          if ds.isEmpty then (0, cs) else (Int.ofNat (digitsToNat ds), r3)
    else (0, cs)
  | [] => (0, cs)

/-- Optional fraction part `(\.\d+)?`: digit count, digit value, rest. -/
def parseFracPart (cs : List Char) : Nat × Nat × List Char :=
  match cs with
  | '.' :: rest =>
      let (ds, r2) := takeDigits rest
      if ds.isEmpty then (0, 0, cs) else (ds.length, digitsToNat ds, r2)
  | _ => (0, 0, cs)

/-- Python `json` NUMBER_RE: `(-?(?:0|[1-9]\d*))(\.\d+)?([eE][-+]?\d+)?`
matched at the head of `cs`; returns the value and the rest on success. -/
def parseNumCore (cs : List Char) : Option (ℚ × List Char) :=
  let (sign, cs1) : Int × List Char :=
    match cs with
    | '-' :: rest => (-1, rest)
    | _ => (1, cs)
  match cs1 with
  | '0' :: rest =>
      let (k, f, r2) := parseFracPart rest
      let (e, r3) := parseExpPart r2
      some (numVal sign 0 k f e, r3)
  | c :: _ =>
      if c.isDigit then
        let (ds, rest) := takeDigits cs1
        let (k, f, r2) := parseFracPart rest
        let (e, r3) := parseExpPart r2
        some (numVal sign (digitsToNat ds) k f e, r3)
      else none
  | [] => none

mutual

/-- Python `json` `scan_once`: one JSON value at the head of `cs` (which
has had leading whitespace skipped).  The fuel strictly exceeds any
possible recursion depth when initialized to `4 * length + 8`, so the
`0` case is unreachable. -/
def parseVal : Nat → List Char → Except String (Json × List Char)
  | 0, _ => .error "Recursion limit exceeded"
  | fuel + 1, cs =>
    match cs with
    | [] => .error "Expecting value"
    | '"' :: rest => (parseStrBody rest).map (fun p => (.str (String.mk p.1), p.2))
    | '\x7b' :: rest => parseObjBody fuel (skipWs rest)
    | '[' :: rest => parseArrBody fuel (skipWs rest)
    | _ =>
      if leadsWith "null".data cs then .ok (.null, cs.drop 4)
      else if leadsWith "true".data cs then .ok (.bool true, cs.drop 4)
      else if leadsWith "false".data cs then .ok (.bool false, cs.drop 5)
      else
        match parseNumCore cs with
        | some (q, rest) => .ok (.num (.fin q), rest)
        | none =>
          if leadsWith "NaN".data cs then .ok (.num .nan, cs.drop 3)
          else if leadsWith "Infinity".data cs then .ok (.num .inf, cs.drop 8)
          else if leadsWith "-Infinity".data cs then .ok (.num .ninf, cs.drop 9)
          else .error "Expecting value"

/-- Object body after the opening brace and whitespace. -/
def parseObjBody : Nat → List Char → Except String (Json × List Char)
  | 0, _ => .error "Recursion limit exceeded"
  | fuel + 1, cs =>
    match cs with
    | '\x7d' :: rest => .ok (.obj [], rest)
    | _ => parseMembers fuel [] cs

/-- Member loop of an object; duplicate keys follow Python `dict`
semantics (last value wins, first position kept) via `dSet`. -/
def parseMembers : Nat → Dict → List Char → Except String (Json × List Char)
  | 0, _, _ => .error "Recursion limit exceeded"
  | fuel + 1, acc, cs =>
    match cs with
    | '"' :: rest =>
      (match parseStrBody rest with
       | .error e => .error e
       | .ok (k, r1) =>
         match skipWs r1 with
         | ':' :: r2 =>
           (match parseVal fuel (skipWs r2) with
            | .error e => .error e
            | .ok (v, r3) =>
              let acc2 := dSet acc (String.mk k) v
              match skipWs r3 with
              | ',' :: r4 =>
                (match skipWs r4 with
                 | '"' :: _ => parseMembers fuel acc2 (skipWs r4)
                 | _ => .error "Expecting property name enclosed in double quotes")
              | '\x7d' :: r4 => .ok (.obj acc2, r4)
              | _ => .error "Expecting comma delimiter")
         | _ => .error "Expecting colon delimiter")
    | _ => .error "Expecting property name enclosed in double quotes"

/-- Array body after the opening bracket and whitespace. -/
def parseArrBody : Nat → List Char → Except String (Json × List Char)
  | 0, _ => .error "Recursion limit exceeded"
  | fuel + 1, cs =>
    match cs with
    | ']' :: rest => .ok (.arr [], rest)
    | _ => parseElems fuel [] cs

/-- Element loop of an array. -/
def parseElems : Nat → List Json → List Char → Except String (Json × List Char)
  | 0, _, _ => .error "Recursion limit exceeded"
  | fuel + 1, acc, cs =>
    match parseVal fuel cs with
    | .error e => .error e
    | .ok (v, r1) =>
      match skipWs r1 with
      | ',' :: r2 => parseElems fuel (acc ++ [v]) (skipWs r2)
      | ']' :: r2 => .ok (.arr (acc ++ [v]), r2)
      | _ => .error "Expecting comma delimiter"

end

/-- Python `json.loads`: skip leading whitespace, scan one value, skip
trailing whitespace, and reject leftover input ("Extra data"). -/
def jsonLoads (cs : List Char) : Except String Json :=
  let cs1 := skipWs cs
  match parseVal (4 * cs1.length + 8) cs1 with
  | .error e => .error e
  | .ok (v, rest) =>
      if (skipWs rest).isEmpty then .ok v else .error "Extra data"

/-- ASCII-lowercased comparison used for `inf`, `infinity`, `nan` in
Python `float()`. -/
def lowerEqLit (lit : List Char) (cs : List Char) : Bool :=
  match lit, cs with
  | [], [] => true
  | l :: ls, c :: rest => (c.toLower = l) && lowerEqLit ls rest
  | _, _ => false

/-- Decimal part of Python `float(str)` after sign removal: digit run,
optional `.` with a digit run, at least one digit overall, optional
exponent with at least one digit, and nothing left over. -/
def pyFloatDec (sign : Int) (cs : List Char) : Option ℚ :=
  let (d1, r1) := takeDigits cs
  let finish : Nat → Nat → List Char → Option ℚ := fun k f r2 =>
    match r2 with
    | [] => some (numVal sign (digitsToNat d1) k f 0)
    | e :: r3 =>
      if e = 'e' || e = 'E' then
        let (esign, r4) : Int × List Char :=
          match r3 with
          | '+' :: r5 => (1, r5)
          | '-' :: r5 => (-1, r5)
          | _ => (1, r3)
        let (ds, r6) := takeDigits r4
        if ds.isEmpty || !r6.isEmpty then none
        else some (numVal sign (digitsToNat d1) k f (esign * Int.ofNat (digitsToNat ds)))
      else none
  match r1 with
  | '.' :: r2 =>
      let (d2, r3) := takeDigits r2
      if d1.isEmpty && d2.isEmpty then none
      else finish d2.length (digitsToNat d2) r3
  | _ => if d1.isEmpty then none else finish 0 0 r1

/-- Python `float(str)`: strip whitespace, optional sign, then a decimal
literal or one of `inf`, `infinity`, `nan` (case-insensitive).  `none`
models a raised `ValueError`.  Digit-group underscores are outside the
model. -/
def pyFloatCore (cs0 : List Char) : Option PyNum :=
  let cs := pyStrip cs0
  let (sign, cs1) : Int × List Char :=
    match cs with
    | '+' :: rest => (1, rest)
    | '-' :: rest => (-1, rest)
    | _ => (1, cs)
  if lowerEqLit "inf".data cs1 || lowerEqLit "infinity".data cs1 then
    some (if sign = 1 then .inf else .ninf)
  else if lowerEqLit "nan".data cs1 then some .nan
  else (pyFloatDec sign cs1).map .fin

/-- Literal pattern match: drop `lit` from the head of `cs`. -/
def dropLit : List Char → List Char → Option (List Char)
  | [], cs => some cs
  | _ :: _, [] => none
  | l :: ls, c :: rest => if l = c then dropLit ls rest else none

/-- Attempt of the pattern `"key"\s*:\s*"([^"]*)"` at the head of `cs`
(an isolated `re.search` pattern of `_extract_fields_with_regex`); the
greedy quote-free capture must be closed by a double quote. -/
def matchKeyQuoted (key : List Char) (cs : List Char) : Option (List Char) :=
  match dropLit ('"' :: key ++ ['"']) cs with
  | none => none
  | some r1 =>
    match r1.dropWhile reWs with
    | ':' :: r3 =>
      (match r3.dropWhile reWs with
       | '"' :: r5 =>
         let v := r5.takeWhile (· ≠ '"')
         (match r5.dropWhile (· ≠ '"') with
          | '"' :: _ => some v
          | _ => none)
       | _ => none)
    | _ => none

/-- Leftmost match of `"key"\s*:\s*"([^"]*)"` (Python `re.search`). -/
def searchKeyQuoted (key : List Char) : List Char → Option (List Char)
  | [] => none
  | c :: rest =>
    match matchKeyQuoted key (c :: rest) with
    | some v => some v
    | none => searchKeyQuoted key rest

/-- Attempt of the pattern `"key"\s*:\s*([\d\.]+)` at the head of `cs`. -/
def matchKeyNum (key : List Char) (cs : List Char) : Option (List Char) :=
  match dropLit ('"' :: key ++ ['"']) cs with
  | none => none
  | some r1 =>
    match r1.dropWhile reWs with
    | ':' :: r3 =>
      let r4 := r3.dropWhile reWs
      let run := r4.takeWhile (fun c => c.isDigit || c = '.')
      if run.isEmpty then none else some run
    | _ => none

/-- Leftmost match of `"key"\s*:\s*([\d\.]+)` (Python `re.search`). -/
def searchKeyNum (key : List Char) : List Char → Option (List Char)
  | [] => none
  | c :: rest =>
    match matchKeyNum key (c :: rest) with
    | some v => some v
    | none => searchKeyNum key rest

/-- Embedding of `_extract_fields_with_regex(content)`: isolated searches
over the original content for the four flat fields (any miss leaves the
field absent), then `citations` and `further_reading` are set to empty
lists.  A matched textual confidence is converted with `float()`, with
0.5 on `ValueError`. -/
def regexExtract (content : List Char) : Dict :=
  let r : Dict := []
  let r := match searchKeyQuoted "background".data content with
    | some v => dSet r "background" (.str (String.mk v))
    | none => r
  let r := match searchKeyQuoted "reasoning".data content with
    | some v => dSet r "reasoning" (.str (String.mk v))
    | none => r
  let r := match searchKeyQuoted "answer".data content with
    | some v => dSet r "answer" (.str (String.mk v))
    | none => r
  let r := match searchKeyNum "confidence".data content with
    | some run =>
        dSet r "confidence" (.num ((pyFloatCore run).getD (.fin (mkRat 1 2))))
    | none => r
  let r := dSet r "citations" (.arr [])
  dSet r "further_reading" (.arr [])

/-- Python type name of a `Json` value (int/float collapsed), used only
inside modeled exception messages. -/
def typeName : Json → String
  | .null => "NoneType"
  | .bool _ => "bool"
  | .num _ => "float"
  | .str _ => "str"
  | .arr _ => "list"
  | .obj _ => "dict"

/-- Stages 1-4 of `_parse_response`: candidate extraction, syntax repair,
`json.loads`, and on `JSONDecodeError` the regex fallback over the
original content.  A successfully parsed non-object value reaches
`result.setdefault` and raises `AttributeError` (an `.error` here), which
only the outer catch-all handles. -/
def stageDict (s : String) : Except String Dict :=
  match jsonLoads (repairCandidate (extractCandidate s.data)) with
  | .ok (.obj d) => .ok d
  | .ok v => .error ("AttributeError: " ++ typeName v ++ " object has no attribute setdefault")
  | .error _ => .ok (regexExtract s.data)

/-- Stage 5 of `_parse_response`: the six `result.setdefault` calls, in
source order. -/
def defaultFields (d : Dict) : Dict :=
  dSetdefault (dSetdefault (dSetdefault (dSetdefault (dSetdefault (dSetdefault d
    "background" (.str "No background information provided."))
    "reasoning" (.str "No reasoning provided."))
    "answer" (.str "No answer provided."))
    "confidence" (.num (.fin (mkRat 1 2))))
    "citations" (.arr []))
    "further_reading" (.arr [])

/-- Textual-confidence conversion: `float(result["confidence"])` when the
value is a `str`, with 0.5 on `ValueError`. -/
def coerceConfStr (d : Dict) : Dict :=
  match dGet d "confidence" with
  | some (.str t) =>
      dSet d "confidence" (.num ((pyFloatCore t.data).getD (.fin (mkRat 1 2))))
  | _ => d

/-- Python comparison `v > 1.0`; raises `TypeError` (an `.error`) unless
the value is a number or a bool (NaN compares false, booleans count as
0 and 1). -/
def pyGtOne : Json → Except String Bool
  | .num (.fin q) => .ok (decide (1 < q))
  | .num .nan => .ok false
  | .num .inf => .ok true
  | .num .ninf => .ok false
  | .bool b => .ok (decide ((1 : ℚ) < (if b then 1 else 0)))
  | v => .error ("TypeError: comparison not supported for " ++ typeName v)

/-- Python comparison `v < 0.0` under the same typing rules. -/
def pyLtZero : Json → Except String Bool
  | .num (.fin q) => .ok (decide (q < 0))
  | .num .nan => .ok false
  | .num .inf => .ok false
  | .num .ninf => .ok true
  | .bool b => .ok (decide ((if b then (1 : ℚ) else 0) < 0))
  | v => .error ("TypeError: comparison not supported for " ++ typeName v)

/-- Stage 6a of `_parse_response`: the confidence cap.  A value that is
neither a number nor a bool makes `result.get("confidence") > 1.0` raise,
which the outer catch-all converts into the sentinel record.  An absent
key would make `result.get` return `None`, modeled by `.getD .null`. -/
def clampConf (d : Dict) : Except String Dict :=
  match pyGtOne ((dGet d "confidence").getD .null) with
  | .error e => .error e
  | .ok true => .ok (dSet d "confidence" (.num (.fin 1)))
  | .ok false =>
    match pyLtZero ((dGet d "confidence").getD .null) with
    | .error e => .error e
    | .ok true => .ok (dSet d "confidence" (.num (.fin 0)))
    | .ok false => .ok d

/-- First half of stage 6b: coerce a non-list `citations` to `[]`. -/
def coerceCits (d : Dict) : Dict :=
  match dGet d "citations" with
  | some (.arr _xs) => d
  | _ => dSet d "citations" (.arr [])

/-- Second half of stage 6b: coerce a non-list `further_reading` to `[]`. -/
def coerceFR (d : Dict) : Dict :=
  match dGet d "further_reading" with
  | some (.arr _xs) => d
  | _ => dSet d "further_reading" (.arr [])

/-- Stage 6b of `_parse_response`: coerce non-list `citations` and
`further_reading` to empty lists, in source order. -/
def coerceLists (d : Dict) : Dict :=
  coerceFR (coerceCits d)

/-- Body of the `try` block of `_parse_response` on the extracted
content; an `.error` is an exception reaching the outer catch-all. -/
def parseInner (s : String) : Except String Dict :=
  match stageDict s with
  | .error e => .error e
  | .ok d =>
    match clampConf (coerceConfStr (defaultFields d)) with
    | .error e => .error e
    | .ok d2 => .ok (coerceLists d2)

/-- The catch-all fallback record of `_parse_response`: raw content as
the answer, zero confidence, explanatory failure text. -/
def catastrophic (s e : String) : Dict :=
  [("background", .str "Error parsing the response."),
   ("reasoning", .str ("An error occurred during processing: " ++ e)),
   ("answer", .str s),
   ("confidence", .num (.fin 0)),
   ("citations", .arr []),
   ("further_reading", .arr [])]

/-- Embedding of `_parse_response` on the raw content string: the `try`
body with the outer `except Exception` catch-all.  Total by
construction — the Python contract that no exception escapes. -/
def parse (s : String) : Dict :=
  match parseInner s with
  | .ok d => d
  | .error e => catastrophic s e

/-- Hexadecimal digit (lowercase, as Python emits in `\uXXXX`). -/
def hexDigit (n : Nat) : Char :=
  if n < 10 then Char.ofNat (n + 48) else Char.ofNat (n - 10 + 97)

/-- Four-digit hexadecimal rendering. -/
def hex4 (n : Nat) : List Char :=
  [hexDigit (n / 4096 % 16), hexDigit (n / 256 % 16), hexDigit (n / 16 % 16), hexDigit (n % 16)]

/-- Decimal digits of a natural number, most significant first (fueled;
fuel `n + 1` suffices). -/
def natDigits : Nat → Nat → List Char
  | 0, _ => []
  | fuel + 1, n =>
      if n < 10 then [Char.ofNat (n + 48)]
      else natDigits fuel (n / 10) ++ [Char.ofNat (n % 10 + 48)]

/-- Decimal rendering of a natural number. -/
def natRender (n : Nat) : String :=
  String.mk (natDigits (n + 1) n)

/-- Exactly `k` decimal digits of `m`, with leading zeros. -/
def fracDigits : Nat → Nat → List Char
  | 0, _ => []
  | k + 1, m => fracDigits k (m / 10) ++ [Char.ofNat (m % 10 + 48)]

/-- Smallest `k` with `den ∣ 10 ^ k`, searched up to the fuel. -/
def pow10FitAux (den : Nat) : Nat → Nat → Option Nat
  | 0, _ => none
  | fuel + 1, k => if 10 ^ k % den = 0 then some k else pow10FitAux den fuel (k + 1)

/-- Shortest exact decimal rendering of a rational whose reduced
denominator divides a power of ten — every number `parse` can produce is
of this shape.  Mirrors Python float repr on such values up to the
int/float collapse of the embedding. -/
def numRender (q : ℚ) : String :=
  let sign : String := if q.num < 0 then "-" else ""
  let a := q.num.natAbs
  if q.den = 1 then sign ++ natRender a
  else
    match pow10FitAux q.den 64 1 with
    | some k =>
        let scaled := a * (10 ^ k / q.den)
        sign ++ natRender (scaled / 10 ^ k) ++ "." ++ String.mk (fracDigits k (scaled % 10 ^ k))
    | none => "0"

/-- Rendering of a Python number by `json.dumps` (NaN and the infinities
use Python's non-standard literals, `allow_nan=True`). -/
def dumpNum : PyNum → String
  | .fin q => numRender q
  | .nan => "NaN"
  | .inf => "Infinity"
  | .ninf => "-Infinity"

/-- One character of a JSON string as escaped by `json.dumps` with the
default `ensure_ascii=True` (astral characters, which would need a
surrogate pair, are outside the model). -/
def escapeChar (c : Char) : List Char :=
  if c = '"' then ['\\', '"']
  else if c = '\\' then ['\\', '\\']
  else if c = '\n' then ['\\', 'n']
  else if c = '\r' then ['\\', 'r']
  else if c = '\t' then ['\\', 't']
  else if c = '\x08' then ['\\', 'b']
  else if c = '\x0c' then ['\\', 'f']
  else if c.toNat < 0x20 || 0x7f ≤ c.toNat then '\\' :: 'u' :: hex4 c.toNat
  else [c]

/-- Quoted, escaped JSON string as emitted by `json.dumps`. -/
def escapeStr (s : String) : String :=
  String.mk ('"' :: s.data.foldr (fun c acc => escapeChar c ++ acc) ['"'])

/-- Comma-space joining (the default `json.dumps` item separator). -/
def joinSep (sep : String) : List String → String
  | [] => ""
  | [x] => x
  | x :: y :: rest => x ++ sep ++ joinSep sep (y :: rest)

/-- Serialization of a value with the defaults of Python `json.dumps`
(separators `", "` and `": "`, `ensure_ascii=True`, `allow_nan=True`).
Modelled from the spec: §8 re-feeds "parse output serialized back to
text" without fixing a serializer, and the repository serializes records
with the standard `json` module, which is not under src/.  The fuel
bounds the nesting depth; it exceeds any depth occurring in the verified
statements, and deeper values are only ever used under a hypothesis that
the serialized text loads back to the same record. -/
def dumpsV : Nat → Json → String
  | 0, _ => ""
  | fuel + 1, v =>
    match v with
    | .null => "null"
    | .bool b => if b then "true" else "false"
    | .num n => dumpNum n
    | .str s => escapeStr s
    | .arr xs => "[" ++ joinSep ", " (xs.map (dumpsV fuel)) ++ "]"
    | .obj kvs =>
        "\x7b" ++
          joinSep ", " (kvs.map (fun kv => escapeStr kv.1 ++ ": " ++ dumpsV fuel kv.2)) ++
          "\x7d"

/-- Serialization of an answer record back to raw text (spec §8). -/
def dumpRecord (d : Dict) : String :=
  dumpsV 1000 (.obj d)

/-- Values the confidence field of a returned record can hold: a rational
in the closed unit interval, NaN (which defeats the cap because both NaN
comparisons are false), or a Python bool (numerically 0 or 1, untouched
by the cap). -/
def ConfGood (c : Json) : Prop :=
  (∃ q : ℚ, c = .num (.fin q) ∧ 0 ≤ q ∧ q ≤ 1) ∨ c = .num .nan ∨ ∃ b, c = .bool b

/-- The confidence value, interpreted as a real quantity, lies in the
closed interval [0, 1]; NaN and non-numeric values do not. -/
def ConfInUnit (c : Json) : Prop :=
  (∃ q : ℚ, c = .num (.fin q) ∧ 0 ≤ q ∧ q ≤ 1) ∨ ∃ b, c = .bool b

/-- The keys every returned record must carry. -/
def requiredKeys : List String :=
  ["background", "reasoning", "answer", "confidence", "citations", "further_reading"]

/-- Scenario B of the spec: JSON with an inline comment and a trailing
comma. -/
def scenarioBInput : String :=
  "\x7b\"background\":\"B\",\"answer\":\"A\", // note\n\"confidence\":1.5,\x7d"

/-- A well-formed completion whose citation URL contains `//`. -/
def urlCompletion : String :=
  "\x7b\"background\": \"B\", \"answer\": \"A\", \"citations\": [\x7b\"title\": \"T\", \"url\": \"https://example.com\"\x7d], \"further_reading\": []\x7d"

/-- An input whose recovered answer value contains a comma-space-bracket
sequence, which the trailing-comma repair corrupts on a re-parse. -/
def driftInput : String :=
  "\"answer\": \"x, ]\" oops"

/-- A well-formed completion whose serialization round-trips exactly. -/
def stableInput : String :=
  "\x7b\"background\": \"B\", \"reasoning\": \"R\", \"answer\": \"A\", \"confidence\": 0.9, \"citations\": [], \"further_reading\": []\x7d"

end Synaflow

namespace Synaflow

/-! Helper lemmas about the association-list dict operations and the
pipeline stages.  These are shared by the claim theorems below. -/

theorem dGet_dSet_self (d : Dict) (k : String) (v : Json) :
    dGet (dSet d k v) k = some v := by
  induction d with
  | nil => simp [dSet, dGet]
  | cons kv rest ih =>
      by_cases h : kv.1 = k
      · simp [dSet, h, dGet]
      · simp [dSet, h, dGet, ih]

theorem dGet_dSet_other (d : Dict) (k' k : String) (v : Json) (h : k' ≠ k) :
    dGet (dSet d k' v) k = dGet d k := by
  induction d with
  | nil => simp [dSet, dGet, h]
  | cons kv rest ih =>
      by_cases h2 : kv.1 = k'
      · simp [dSet, h2, dGet, h]
      · simp [dSet, h2, dGet]
        by_cases h3 : kv.1 = k
        · simp [h3]
        · simp [h3, ih]

theorem dGet_append_some (d d2 : Dict) (k : String) (w : Json)
    (h : dGet d k = some w) : dGet (d ++ d2) k = some w := by
  induction d with
  | nil => simp [dGet] at h
  | cons kv rest ih =>
      by_cases h2 : kv.1 = k
      · simp [dGet, h2] at h ⊢
        exact h
      · simp [dGet, h2] at h ⊢
        exact ih h

theorem dGet_append_none (d d2 : Dict) (k : String)
    (h : dGet d k = none) : dGet (d ++ d2) k = dGet d2 k := by
  induction d with
  | nil => simp [dGet]
  | cons kv rest ih =>
      by_cases h2 : kv.1 = k
      · simp [dGet, h2] at h
      · simp [dGet, h2] at h ⊢
        exact ih h

theorem dSetdefault_of_present (d : Dict) (k : String) (v w : Json)
    (h : dGet d k = some w) : dSetdefault d k v = d := by
  simp [dSetdefault, h]

theorem dGet_dSetdefault_self (d : Dict) (k : String) (v : Json) :
    dGet (dSetdefault d k v) k = some ((dGet d k).getD v) := by
  unfold dSetdefault
  cases h : dGet d k with
  | some w => simp [h]
  | none =>
      simp [dGet_append_none d _ k h, dGet]

theorem dGet_dSetdefault_other (d : Dict) (k' k : String) (v : Json) (h : k' ≠ k) :
    dGet (dSetdefault d k' v) k = dGet d k := by
  unfold dSetdefault
  cases h2 : dGet d k' with
  | some w => rfl
  | none =>
      cases h3 : dGet d k with
      | some w => exact dGet_append_some d _ k w h3
      | none =>
          rw [dGet_append_none d _ k h3]
          simp [dGet, h]

theorem isSome_dSetdefault (d : Dict) (k' k : String) (v : Json)
    (h : (dGet d k).isSome) : (dGet (dSetdefault d k' v) k).isSome := by
  by_cases h2 : k' = k
  · subst h2
    rw [dGet_dSetdefault_self]
    rfl
  · rw [dGet_dSetdefault_other d k' k v h2]
    exact h

theorem isSome_dSetdefault_self (d : Dict) (k : String) (v : Json) :
    (dGet (dSetdefault d k v) k).isSome := by
  rw [dGet_dSetdefault_self]
  rfl

theorem isSome_dSet (d : Dict) (k' k : String) (v : Json)
    (h : (dGet d k).isSome) : (dGet (dSet d k' v) k).isSome := by
  by_cases h2 : k' = k
  · subst h2
    rw [dGet_dSet_self]
    rfl
  · rw [dGet_dSet_other d k' k v h2]
    exact h

end Synaflow

namespace Synaflow

/-! Lemmas about the individual pipeline stages. -/

theorem dGet_coerceCits_other (d : Dict) (k : String) (h : k ≠ "citations") :
    dGet (coerceCits d) k = dGet d k := by
  unfold coerceCits
  split
  · rfl
  · exact dGet_dSet_other d _ k _ (Ne.symm h)

theorem dGet_coerceFR_other (d : Dict) (k : String) (h : k ≠ "further_reading") :
    dGet (coerceFR d) k = dGet d k := by
  unfold coerceFR
  split
  · rfl
  · exact dGet_dSet_other d _ k _ (Ne.symm h)

theorem coerceCits_citations (d : Dict) :
    ∃ xs, dGet (coerceCits d) "citations" = some (.arr xs) := by
  unfold coerceCits
  split
  next xs heq => exact ⟨xs, heq⟩
  next => exact ⟨[], dGet_dSet_self d _ _⟩

theorem coerceFR_further (d : Dict) :
    ∃ xs, dGet (coerceFR d) "further_reading" = some (.arr xs) := by
  unfold coerceFR
  split
  next xs heq => exact ⟨xs, heq⟩
  next => exact ⟨[], dGet_dSet_self d _ _⟩

theorem coerceLists_citations (d : Dict) :
    ∃ xs, dGet (coerceLists d) "citations" = some (.arr xs) := by
  obtain ⟨xs, h⟩ := coerceCits_citations d
  refine ⟨xs, ?_⟩
  rw [coerceLists, dGet_coerceFR_other _ _ (by decide), h]

theorem coerceLists_further (d : Dict) :
    ∃ xs, dGet (coerceLists d) "further_reading" = some (.arr xs) :=
  coerceFR_further (coerceCits d)

theorem dGet_coerceLists_other (d : Dict) (k : String)
    (h1 : k ≠ "citations") (h2 : k ≠ "further_reading") :
    dGet (coerceLists d) k = dGet d k := by
  rw [coerceLists, dGet_coerceFR_other _ _ h2, dGet_coerceCits_other _ _ h1]

theorem isSome_coerceLists (d : Dict) (k : String)
    (h : (dGet d k).isSome) : (dGet (coerceLists d) k).isSome := by
  by_cases h1 : k = "citations"
  · subst h1
    obtain ⟨xs, hx⟩ := coerceLists_citations d
    rw [hx]
    rfl
  · by_cases h2 : k = "further_reading"
    · subst h2
      obtain ⟨xs, hx⟩ := coerceLists_further d
      rw [hx]
      rfl
    · rw [dGet_coerceLists_other d k h1 h2]
      exact h

theorem dGet_coerceConfStr_other (d : Dict) (k : String) (h : k ≠ "confidence") :
    dGet (coerceConfStr d) k = dGet d k := by
  unfold coerceConfStr
  split
  · exact dGet_dSet_other d _ k _ (Ne.symm h)
  · rfl

theorem isSome_coerceConfStr (d : Dict) (k : String)
    (h : (dGet d k).isSome) : (dGet (coerceConfStr d) k).isSome := by
  unfold coerceConfStr
  split
  · exact isSome_dSet d _ k _ h
  · exact h

theorem clampConf_ok_cases (d d2 : Dict) (h : clampConf d = .ok d2) :
    d2 = dSet d "confidence" (.num (.fin 1)) ∨
    d2 = dSet d "confidence" (.num (.fin 0)) ∨ d2 = d := by
  unfold clampConf at h
  split at h
  · exact absurd h (by simp)
  · exact Or.inl (Except.ok.inj h).symm
  · split at h
    · exact absurd h (by simp)
    · exact Or.inr (Or.inl (Except.ok.inj h).symm)
    · exact Or.inr (Or.inr (Except.ok.inj h).symm)

theorem isSome_clampConf (d d2 : Dict) (k : String) (h : clampConf d = .ok d2)
    (hk : (dGet d k).isSome) : (dGet d2 k).isSome := by
  rcases clampConf_ok_cases d d2 h with h2 | h2 | h2 <;> subst h2
  · exact isSome_dSet d _ k _ hk
  · exact isSome_dSet d _ k _ hk
  · exact hk

theorem clampConf_ok_conf (d d2 : Dict) (h : clampConf d = .ok d2) :
    ∃ c, dGet d2 "confidence" = some c ∧ ConfGood c := by
  unfold clampConf at h
  cases hg : pyGtOne ((dGet d "confidence").getD .null) with
  | error e => rw [hg] at h; exact absurd h (by simp)
  | ok b =>
    rw [hg] at h
    cases b with
    | true =>
        refine ⟨.num (.fin 1), ?_, Or.inl ⟨1, rfl, by norm_num⟩⟩
        rw [← Except.ok.inj h, dGet_dSet_self]
    | false =>
      cases hl : pyLtZero ((dGet d "confidence").getD .null) with
      | error e => rw [hl] at h; exact absurd h (by simp)
      | ok b2 =>
        rw [hl] at h
        cases b2 with
        | true =>
            refine ⟨.num (.fin 0), ?_, Or.inl ⟨0, rfl, by norm_num⟩⟩
            rw [← Except.ok.inj h, dGet_dSet_self]
        | false =>
          have hd : d = d2 := Except.ok.inj h
          subst hd
          cases hc : dGet d "confidence" with
          | none => rw [hc] at hg; simp [pyGtOne] at hg
          | some c =>
            rw [hc] at hg hl
            refine ⟨c, rfl, ?_⟩
            cases c with
            | null => simp [pyGtOne] at hg
            | str t => simp [pyGtOne] at hg
            | arr xs => simp [pyGtOne] at hg
            | obj kvs => simp [pyGtOne] at hg
            | bool b => exact Or.inr (Or.inr ⟨b, rfl⟩)
            | num n =>
              cases n with
              | nan => exact Or.inr (Or.inl rfl)
              | inf => simp [pyGtOne] at hg
              | ninf => simp [pyLtZero] at hl
              | fin q =>
                  simp [pyGtOne] at hg
                  simp [pyLtZero] at hl
                  exact Or.inl ⟨q, rfl, hl, hg⟩

theorem parseInner_ok_inv (s : String) (d : Dict) (h : parseInner s = .ok d) :
    ∃ d0 d2, stageDict s = .ok d0 ∧
      clampConf (coerceConfStr (defaultFields d0)) = .ok d2 ∧ d = coerceLists d2 := by
  unfold parseInner at h
  split at h
  · exact absurd h (by simp)
  next d0 heq =>
    split at h
    · exact absurd h (by simp)
    next d2 heq2 => exact ⟨d0, d2, heq, heq2, (Except.ok.inj h).symm⟩

theorem parse_conf_good (s : String) :
    ∃ c, dGet (parse s) "confidence" = some c ∧ ConfGood c := by
  unfold parse
  cases h : parseInner s with
  | error e => exact ⟨.num (.fin 0), rfl, Or.inl ⟨0, rfl, by norm_num⟩⟩
  | ok d =>
    obtain ⟨d0, d2, hs, hc, hd⟩ := parseInner_ok_inv s d h
    obtain ⟨c, hcc, hg⟩ := clampConf_ok_conf _ _ hc
    refine ⟨c, ?_, hg⟩
    rw [hd, dGet_coerceLists_other _ _ (by decide) (by decide), hcc]

theorem isSome_defaultFields (d : Dict) (k : String) (hk : k ∈ requiredKeys) :
    (dGet (defaultFields d) k).isSome := by
  unfold defaultFields
  simp only [requiredKeys, List.mem_cons, List.mem_singleton] at hk
  rcases hk with rfl | rfl | rfl | rfl | rfl | rfl | h
  · exact isSome_dSetdefault _ _ _ _ (isSome_dSetdefault _ _ _ _ (isSome_dSetdefault _ _ _ _
      (isSome_dSetdefault _ _ _ _ (isSome_dSetdefault _ _ _ _ (isSome_dSetdefault_self _ _ _)))))
  · exact isSome_dSetdefault _ _ _ _ (isSome_dSetdefault _ _ _ _ (isSome_dSetdefault _ _ _ _
      (isSome_dSetdefault _ _ _ _ (isSome_dSetdefault_self _ _ _))))
  · exact isSome_dSetdefault _ _ _ _ (isSome_dSetdefault _ _ _ _ (isSome_dSetdefault _ _ _ _
      (isSome_dSetdefault_self _ _ _)))
  · exact isSome_dSetdefault _ _ _ _ (isSome_dSetdefault _ _ _ _ (isSome_dSetdefault_self _ _ _))
  · exact isSome_dSetdefault _ _ _ _ (isSome_dSetdefault_self _ _ _)
  · exact isSome_dSetdefault_self _ _ _
  · cases h

theorem parse_key_present (s : String) (k : String) (hk : k ∈ requiredKeys) :
    (dGet (parse s) k).isSome := by
  unfold parse
  cases h : parseInner s with
  | error e =>
      simp only [requiredKeys, List.mem_cons, List.mem_singleton] at hk
      rcases hk with rfl | rfl | rfl | rfl | rfl | rfl | h2
      · rfl
      · rfl
      · rfl
      · rfl
      · rfl
      · rfl
      · cases h2
  | ok d =>
    obtain ⟨d0, d2, hs, hc, hd⟩ := parseInner_ok_inv s d h
    rw [hd]
    exact isSome_coerceLists _ _ (isSome_clampConf _ _ _ hc
      (isSome_coerceConfStr _ _ (isSome_defaultFields d0 k hk)))

end Synaflow

namespace Synaflow

/-! Identity and propagation lemmas used by several claim theorems. -/

theorem defaultFields_id (d : Dict)
    (h : ∀ k, k ∈ requiredKeys → (dGet d k).isSome) : defaultFields d = d := by
  obtain ⟨v1, h1⟩ := Option.isSome_iff_exists.mp (h "background" (by simp [requiredKeys]))
  obtain ⟨v2, h2⟩ := Option.isSome_iff_exists.mp (h "reasoning" (by simp [requiredKeys]))
  obtain ⟨v3, h3⟩ := Option.isSome_iff_exists.mp (h "answer" (by simp [requiredKeys]))
  obtain ⟨v4, h4⟩ := Option.isSome_iff_exists.mp (h "confidence" (by simp [requiredKeys]))
  obtain ⟨v5, h5⟩ := Option.isSome_iff_exists.mp (h "citations" (by simp [requiredKeys]))
  obtain ⟨v6, h6⟩ := Option.isSome_iff_exists.mp (h "further_reading" (by simp [requiredKeys]))
  unfold defaultFields
  rw [dSetdefault_of_present d _ _ v1 h1, dSetdefault_of_present d _ _ v2 h2,
      dSetdefault_of_present d _ _ v3 h3, dSetdefault_of_present d _ _ v4 h4,
      dSetdefault_of_present d _ _ v5 h5, dSetdefault_of_present d _ _ v6 h6]

theorem coerceConfStr_of_not_str (d : Dict) (c : Json) (hc : dGet d "confidence" = some c)
    (h : ∀ t, c ≠ .str t) : coerceConfStr d = d := by
  unfold coerceConfStr
  rw [hc]
  cases c with
  | str t => exact absurd rfl (h t)
  | null => rfl
  | bool b => rfl
  | num n => rfl
  | arr xs => rfl
  | obj kvs => rfl

theorem clampConf_id (d : Dict) (c : Json) (hc : dGet d "confidence" = some c)
    (h : ConfGood c) : clampConf d = .ok d := by
  unfold clampConf
  rw [hc]
  rcases h with ⟨q, rfl, h0, h1⟩ | rfl | ⟨b, rfl⟩
  · have e1 : decide (1 < q) = false := decide_eq_false (not_lt.mpr h1)
    have e2 : decide (q < 0) = false := decide_eq_false (not_lt.mpr h0)
    simp [pyGtOne, pyLtZero, e1, e2]
  · rfl
  · cases b <;> rfl

theorem coerceLists_id (d : Dict) (xs ys : List Json)
    (h1 : dGet d "citations" = some (.arr xs))
    (h2 : dGet d "further_reading" = some (.arr ys)) :
    coerceLists d = d := by
  have e1 : coerceCits d = d := by
    unfold coerceCits
    rw [h1]
  have e2 : coerceFR d = d := by
    unfold coerceFR
    rw [h2]
  rw [coerceLists, e1, e2]

theorem dGet_defaultFields_conf (d : Dict) (c : Json) (h : dGet d "confidence" = some c) :
    dGet (defaultFields d) "confidence" = some c := by
  unfold defaultFields
  rw [dGet_dSetdefault_other _ _ _ _ (by decide), dGet_dSetdefault_other _ _ _ _ (by decide),
      dGet_dSetdefault_self, dGet_dSetdefault_other _ _ _ _ (by decide),
      dGet_dSetdefault_other _ _ _ _ (by decide), dGet_dSetdefault_other _ _ _ _ (by decide), h]
  rfl

theorem parse_citations_arr (s : String) :
    ∃ xs, dGet (parse s) "citations" = some (.arr xs) := by
  unfold parse
  cases h : parseInner s with
  | error e => exact ⟨[], rfl⟩
  | ok d =>
    obtain ⟨d0, d2, hs, hc, hd⟩ := parseInner_ok_inv s d h
    rw [hd]
    exact coerceLists_citations d2

theorem parse_further_arr (s : String) :
    ∃ xs, dGet (parse s) "further_reading" = some (.arr xs) := by
  unfold parse
  cases h : parseInner s with
  | error e => exact ⟨[], rfl⟩
  | ok d =>
    obtain ⟨d0, d2, hs, hc, hd⟩ := parseInner_ok_inv s d h
    rw [hd]
    exact coerceLists_further d2

theorem stageDict_of_loads_error (s e : String)
    (h : jsonLoads (repairCandidate (extractCandidate s.data)) = .error e) :
    stageDict s = .ok (regexExtract s.data) := by
  unfold stageDict
  rw [h]

theorem stageDict_of_loads_nonobj (s : String) (v : Json)
    (h : jsonLoads (repairCandidate (extractCandidate s.data)) = .ok v)
    (hv : ∀ kvs, v ≠ .obj kvs) :
    ∃ e, stageDict s = .error e := by
  unfold stageDict
  rw [h]
  cases v with
  | obj kvs => exact absurd rfl (hv kvs)
  | null => exact ⟨_, rfl⟩
  | bool b => exact ⟨_, rfl⟩
  | num n => exact ⟨_, rfl⟩
  | str t => exact ⟨_, rfl⟩
  | arr xs => exact ⟨_, rfl⟩

theorem stageDict_of_loads_obj (s : String) (kvs : Dict)
    (h : jsonLoads (repairCandidate (extractCandidate s.data)) = .ok (.obj kvs)) :
    stageDict s = .ok kvs := by
  unfold stageDict
  rw [h]

theorem parseInner_error_of_stage (s e : String) (h : stageDict s = .error e) :
    parseInner s = .error e := by
  unfold parseInner
  rw [h]

theorem parse_of_parseInner_error (s e : String) (h : parseInner s = .error e) :
    parse s = catastrophic s e := by
  unfold parse
  rw [h]

theorem parse_of_parseInner_ok (s : String) (d : Dict) (h : parseInner s = .ok d) :
    parse s = d := by
  unfold parse
  rw [h]

theorem clampConf_error_of_bad (d : Dict) (c : Json) (hc : dGet d "confidence" = some c)
    (hbad : c = .null ∨ (∃ xs, c = .arr xs) ∨ ∃ kv, c = .obj kv) :
    ∃ e, clampConf d = .error e := by
  unfold clampConf
  rw [hc]
  rcases hbad with rfl | ⟨xs, rfl⟩ | ⟨kv, rfl⟩ <;> exact ⟨_, rfl⟩

theorem parseInner_error_of_clamp (s : String) (d0 : Dict) (e : String)
    (hs : stageDict s = .ok d0)
    (hc : clampConf (coerceConfStr (defaultFields d0)) = .error e) :
    parseInner s = .error e := by
  have h2 : parseInner s =
      (match clampConf (coerceConfStr (defaultFields d0)) with
       | .error e2 => .error e2
       | .ok d2 => .ok (coerceLists d2)) := by
    unfold parseInner
    rw [hs]
  rw [h2, hc]

end Synaflow

namespace Synaflow

/-! Lemmas about the regex-fallback extraction and the comment repair. -/

theorem regexExtract_citations (cs : List Char) :
    dGet (regexExtract cs) "citations" = some (.arr []) := by
  unfold regexExtract
  rw [dGet_dSet_other _ _ _ _ (by decide), dGet_dSet_self]

theorem regexExtract_further (cs : List Char) :
    dGet (regexExtract cs) "further_reading" = some (.arr []) := by
  unfold regexExtract
  rw [dGet_dSet_self]

theorem regexExtract_background_none (cs : List Char)
    (h : searchKeyQuoted "background".data cs = none) :
    dGet (regexExtract cs) "background" = none := by
  have h1 : ∀ (d : Dict) v, dGet (dSet d "reasoning" v) "background" = dGet d "background" :=
    fun d v => dGet_dSet_other d _ _ v (by decide)
  have h2 : ∀ (d : Dict) v, dGet (dSet d "answer" v) "background" = dGet d "background" :=
    fun d v => dGet_dSet_other d _ _ v (by decide)
  have h3 : ∀ (d : Dict) v, dGet (dSet d "confidence" v) "background" = dGet d "background" :=
    fun d v => dGet_dSet_other d _ _ v (by decide)
  have h4 : ∀ (d : Dict) v, dGet (dSet d "citations" v) "background" = dGet d "background" :=
    fun d v => dGet_dSet_other d _ _ v (by decide)
  have h5 : ∀ (d : Dict) v, dGet (dSet d "further_reading" v) "background" = dGet d "background" :=
    fun d v => dGet_dSet_other d _ _ v (by decide)
  unfold regexExtract
  rw [h]
  (repeat' split) <;> simp_all [h1, h2, h3, h4, h5, dGet]

theorem regexExtract_reasoning_none (cs : List Char)
    (h : searchKeyQuoted "reasoning".data cs = none) :
    dGet (regexExtract cs) "reasoning" = none := by
  have h1 : ∀ (d : Dict) v, dGet (dSet d "background" v) "reasoning" = dGet d "reasoning" :=
    fun d v => dGet_dSet_other d _ _ v (by decide)
  have h2 : ∀ (d : Dict) v, dGet (dSet d "answer" v) "reasoning" = dGet d "reasoning" :=
    fun d v => dGet_dSet_other d _ _ v (by decide)
  have h3 : ∀ (d : Dict) v, dGet (dSet d "confidence" v) "reasoning" = dGet d "reasoning" :=
    fun d v => dGet_dSet_other d _ _ v (by decide)
  have h4 : ∀ (d : Dict) v, dGet (dSet d "citations" v) "reasoning" = dGet d "reasoning" :=
    fun d v => dGet_dSet_other d _ _ v (by decide)
  have h5 : ∀ (d : Dict) v, dGet (dSet d "further_reading" v) "reasoning" = dGet d "reasoning" :=
    fun d v => dGet_dSet_other d _ _ v (by decide)
  unfold regexExtract
  rw [h]
  (repeat' split) <;> simp_all [h1, h2, h3, h4, h5, dGet]

theorem regexExtract_answer_none (cs : List Char)
    (h : searchKeyQuoted "answer".data cs = none) :
    dGet (regexExtract cs) "answer" = none := by
  have h1 : ∀ (d : Dict) v, dGet (dSet d "background" v) "answer" = dGet d "answer" :=
    fun d v => dGet_dSet_other d _ _ v (by decide)
  have h2 : ∀ (d : Dict) v, dGet (dSet d "reasoning" v) "answer" = dGet d "answer" :=
    fun d v => dGet_dSet_other d _ _ v (by decide)
  have h3 : ∀ (d : Dict) v, dGet (dSet d "confidence" v) "answer" = dGet d "answer" :=
    fun d v => dGet_dSet_other d _ _ v (by decide)
  have h4 : ∀ (d : Dict) v, dGet (dSet d "citations" v) "answer" = dGet d "answer" :=
    fun d v => dGet_dSet_other d _ _ v (by decide)
  have h5 : ∀ (d : Dict) v, dGet (dSet d "further_reading" v) "answer" = dGet d "answer" :=
    fun d v => dGet_dSet_other d _ _ v (by decide)
  unfold regexExtract
  rw [h]
  (repeat' split) <;> simp_all [h1, h2, h3, h4, h5, dGet]

theorem regexExtract_confidence_none (cs : List Char)
    (h : searchKeyNum "confidence".data cs = none) :
    dGet (regexExtract cs) "confidence" = none := by
  have h1 : ∀ (d : Dict) v, dGet (dSet d "background" v) "confidence" = dGet d "confidence" :=
    fun d v => dGet_dSet_other d _ _ v (by decide)
  have h2 : ∀ (d : Dict) v, dGet (dSet d "reasoning" v) "confidence" = dGet d "confidence" :=
    fun d v => dGet_dSet_other d _ _ v (by decide)
  have h3 : ∀ (d : Dict) v, dGet (dSet d "answer" v) "confidence" = dGet d "confidence" :=
    fun d v => dGet_dSet_other d _ _ v (by decide)
  have h4 : ∀ (d : Dict) v, dGet (dSet d "citations" v) "confidence" = dGet d "confidence" :=
    fun d v => dGet_dSet_other d _ _ v (by decide)
  have h5 : ∀ (d : Dict) v, dGet (dSet d "further_reading" v) "confidence" = dGet d "confidence" :=
    fun d v => dGet_dSet_other d _ _ v (by decide)
  unfold regexExtract
  rw [h]
  (repeat' split) <;> simp_all [h1, h2, h3, h4, h5, dGet]

theorem strip_true_nl (post rest : List Char) (h : '\n' ∉ post) :
    stripCommentsAux true (post ++ '\n' :: rest) = '\n' :: stripCommentsAux false rest := by
  induction post with
  | nil => simp [stripCommentsAux]
  | cons c cp ih =>
      simp only [List.mem_cons, not_or] at h
      have hc : c ≠ '\n' := fun h2 => h.1 h2.symm
      simp [stripCommentsAux, hc, ih h.2]

theorem strip_true_all (post : List Char) (h : '\n' ∉ post) :
    stripCommentsAux true post = [] := by
  induction post with
  | nil => rfl
  | cons c cp ih =>
      simp only [List.mem_cons, not_or] at h
      have hc : c ≠ '\n' := fun h2 => h.1 h2.symm
      simp [stripCommentsAux, hc, ih h.2]

theorem strip_false_comment (pre tail2 : List Char) (h : hasDS (pre ++ ['/']) = false) :
    stripCommentsAux false (pre ++ '/' :: '/' :: tail2) = pre ++ stripCommentsAux true tail2 := by
  induction pre with
  | nil => simp [stripCommentsAux]
  | cons c cp ih =>
      cases cp with
      | nil =>
          have hc : ¬(c = '/') := by
            intro h3
            subst h3
            exact absurd h (by decide)
          have hcb : decide (c = '/') = false := decide_eq_false hc
          simp [stripCommentsAux, hcb]
      | cons c2 cp2 =>
          have hsplit : ((c = '/' && c2 = '/') || hasDS ((c2 :: cp2) ++ ['/'])) = false := h
          rw [Bool.or_eq_false_iff] at hsplit
          have hcond : (c = '/' && c2 = '/') = false := hsplit.1
          have htail : hasDS ((c2 :: cp2) ++ ['/']) = false := hsplit.2
          have step : stripCommentsAux false ((c :: c2 :: cp2) ++ '/' :: '/' :: tail2) =
              c :: stripCommentsAux false ((c2 :: cp2) ++ '/' :: '/' :: tail2) := by
            simp [stripCommentsAux, hcond]
          rw [step, ih htail]
          simp

end Synaflow

namespace Synaflow

theorem parseInner_of_stage_ok (s : String) (d0 d2 : Dict)
    (hs : stageDict s = .ok d0)
    (hc : clampConf (coerceConfStr (defaultFields d0)) = .ok d2) :
    parseInner s = .ok (coerceLists d2) := by
  have h2 : parseInner s =
      (match clampConf (coerceConfStr (defaultFields d0)) with
       | .error e2 => .error e2
       | .ok dd => .ok (coerceLists dd)) := by
    unfold parseInner
    rw [hs]
  rw [h2, hc]

theorem dGet_clampOut_other (dIn d2 : Dict) (k : String) (hk : k ≠ "confidence")
    (hc : clampConf dIn = .ok d2) : dGet d2 k = dGet dIn k := by
  rcases clampConf_ok_cases _ _ hc with h | h | h <;> subst h
  · exact dGet_dSet_other _ _ _ _ (Ne.symm hk)
  · exact dGet_dSet_other _ _ _ _ (Ne.symm hk)
  · rfl

theorem dGet_defaultFields_background (d : Dict) (h : dGet d "background" = none) :
    dGet (defaultFields d) "background" = some (.str "No background information provided.") := by
  unfold defaultFields
  rw [dGet_dSetdefault_other _ _ _ _ (by decide), dGet_dSetdefault_other _ _ _ _ (by decide),
      dGet_dSetdefault_other _ _ _ _ (by decide), dGet_dSetdefault_other _ _ _ _ (by decide),
      dGet_dSetdefault_other _ _ _ _ (by decide), dGet_dSetdefault_self, h]
  rfl

theorem dGet_defaultFields_reasoning (d : Dict) (h : dGet d "reasoning" = none) :
    dGet (defaultFields d) "reasoning" = some (.str "No reasoning provided.") := by
  unfold defaultFields
  rw [dGet_dSetdefault_other _ _ _ _ (by decide), dGet_dSetdefault_other _ _ _ _ (by decide),
      dGet_dSetdefault_other _ _ _ _ (by decide), dGet_dSetdefault_other _ _ _ _ (by decide),
      dGet_dSetdefault_self, dGet_dSetdefault_other _ _ _ _ (by decide), h]
  rfl

theorem dGet_defaultFields_answer (d : Dict) (h : dGet d "answer" = none) :
    dGet (defaultFields d) "answer" = some (.str "No answer provided.") := by
  unfold defaultFields
  rw [dGet_dSetdefault_other _ _ _ _ (by decide), dGet_dSetdefault_other _ _ _ _ (by decide),
      dGet_dSetdefault_other _ _ _ _ (by decide), dGet_dSetdefault_self,
      dGet_dSetdefault_other _ _ _ _ (by decide), dGet_dSetdefault_other _ _ _ _ (by decide), h]
  rfl

end Synaflow

namespace Synaflow

/-- C1: for every raw content string, `parse` returns an answer record and
no error escapes (the embedding is a total function whose catch-all
handles every internal `.error`); in the worst case — whenever the try
body raises — the returned record has the raw content as its answer,
confidence 0.0, and a reasoning value explaining the failure. -/
theorem claim1_parse_never_fails (s : String) :
    (∃ d, parseInner s = .ok d ∧ parse s = d) ∨
    (∃ e, parseInner s = .error e ∧
      dGet (parse s) "answer" = some (.str s) ∧
      dGet (parse s) "confidence" = some (.num (.fin 0)) ∧
      dGet (parse s) "reasoning" =
        some (.str ("An error occurred during processing: " ++ e))) := by
  cases h : parseInner s with
  | ok d =>
      left
      exact ⟨d, rfl, parse_of_parseInner_ok s d h⟩
  | error e =>
      right
      have hp := parse_of_parseInner_error s e h
      refine ⟨e, rfl, ?_, ?_, ?_⟩ <;> rw [hp] <;> rfl

/-- C2 counterexample: the claim says the returned confidence lies in
[0.0, 1.0] for every input, but the input binding confidence to the JSON
literal `NaN` (accepted by Python's `json` with its default
`allow_nan=True`) passes both cap comparisons falsely and is returned as
NaN, which is not a number in the unit interval. -/
theorem claim2_counterexample :
    dGet (parse "\x7b\"confidence\": NaN\x7d") "confidence" = some (.num .nan) ∧
    ¬ ConfInUnit (.num .nan) := by
  refine ⟨rfl, ?_⟩
  rintro (⟨q, hq, -, -⟩ | ⟨b, hb⟩)
  · cases hq
  · cases hb

/-- C2 amended: for every input the returned confidence is present and is
either a value in the closed unit interval (a rational in [0,1] or a bool,
numerically 0 or 1) or NaN, which defeats the cap; in particular the four
listed inputs yield 1.0, 0.0, 0.5 and 0.5 as the claim states. -/
theorem claim2_confidence_in_unit_or_nan (s : String) :
    (∃ c, dGet (parse s) "confidence" = some c ∧ (ConfInUnit c ∨ c = .num .nan)) ∧
    dGet (parse "\x7b\"confidence\": 5\x7d") "confidence" = some (.num (.fin 1)) ∧
    dGet (parse "\x7b\"confidence\": -3\x7d") "confidence" = some (.num (.fin 0)) ∧
    dGet (parse "\x7b\"confidence\": \"abc\"\x7d") "confidence" =
      some (.num (.fin (mkRat 1 2))) ∧
    dGet (parse "\x7b\"answer\": \"A\"\x7d") "confidence" = some (.num (.fin (mkRat 1 2))) := by
  refine ⟨?_, rfl, rfl, rfl, rfl⟩
  obtain ⟨c, hc, hg⟩ := parse_conf_good s
  refine ⟨c, hc, ?_⟩
  rcases hg with h | h | h
  · exact Or.inl (Or.inl h)
  · exact Or.inr h
  · exact Or.inl (Or.inr h)

/-- C3 counterexample: on the plain prose input the defaulting step sets
the answer to the placeholder text, not to the raw input as the claim
(following spec scenario C) states. -/
theorem claim3_counterexample :
    dGet (parse "I don\x27t know.") "answer" = some (.str "No answer provided.") ∧
    "No answer provided." ≠ "I don\x27t know." := by
  exact ⟨rfl, by decide⟩

/-- C3 amended: on the plain prose input (no fence, no brace span, no
regex match) the record is fully defaulted: background, reasoning and
answer all hold their placeholders — the answer placeholder, not the raw
input — and confidence is 0.5 from defaulting, not 0.0 from the
catastrophic branch. -/
theorem claim3_prose_all_defaults :
    parse "I don\x27t know." =
      [("citations", .arr []), ("further_reading", .arr []),
       ("background", .str "No background information provided."),
       ("reasoning", .str "No reasoning provided."),
       ("answer", .str "No answer provided."),
       ("confidence", .num (.fin (mkRat 1 2)))] := rfl

/-- C4 counterexample: the claim says background, reasoning and answer
are non-empty text after defaulting for every input, but a field
explicitly bound to the empty string is kept by `setdefault` and comes
back empty. -/
theorem claim4_counterexample :
    dGet (parse "\x7b\"answer\": \"\"\x7d") "answer" = some (.str "") ∧
    ("" : String).isEmpty = true := ⟨rfl, rfl⟩

/-- C4 amended: the three text fields are always present, and whenever a
field is absent from the recovered mapping the defaulting step fills it
with its non-empty placeholder; only a field explicitly bound (possibly
to empty text) keeps its bound value. -/
theorem claim4_amended (s : String) :
    ((dGet (parse s) "background").isSome ∧ (dGet (parse s) "reasoning").isSome ∧
      (dGet (parse s) "answer").isSome) ∧
    (∀ d0 d, stageDict s = .ok d0 → parseInner s = .ok d →
      (dGet d0 "background" = none →
        dGet (parse s) "background" = some (.str "No background information provided.")) ∧
      (dGet d0 "reasoning" = none →
        dGet (parse s) "reasoning" = some (.str "No reasoning provided.")) ∧
      (dGet d0 "answer" = none →
        dGet (parse s) "answer" = some (.str "No answer provided."))) := by
  constructor
  · exact ⟨parse_key_present s _ (by simp [requiredKeys]),
      parse_key_present s _ (by simp [requiredKeys]),
      parse_key_present s _ (by simp [requiredKeys])⟩
  · intro d0 d hs hpi
    obtain ⟨d0', d2, hs', hc, hd⟩ := parseInner_ok_inv s d hpi
    rw [hs] at hs'
    have hd0 : d0 = d0' := Except.ok.inj hs'
    subst hd0
    have hparse : parse s = d := by
      unfold parse
      rw [hpi]
    refine ⟨?_, ?_, ?_⟩ <;> intro habs
    · rw [hparse, hd, dGet_coerceLists_other _ _ (by decide) (by decide),
          dGet_clampOut_other _ _ _ (by decide) hc, dGet_coerceConfStr_other _ _ (by decide),
          dGet_defaultFields_background d0 habs]
    · rw [hparse, hd, dGet_coerceLists_other _ _ (by decide) (by decide),
          dGet_clampOut_other _ _ _ (by decide) hc, dGet_coerceConfStr_other _ _ (by decide),
          dGet_defaultFields_reasoning d0 habs]
    · rw [hparse, hd, dGet_coerceLists_other _ _ (by decide) (by decide),
          dGet_clampOut_other _ _ _ (by decide) hc, dGet_coerceConfStr_other _ _ (by decide),
          dGet_defaultFields_answer d0 habs]

/-- C4 witness: a prose input whose recovered mapping lacks all text
fields indeed comes back with the non-empty placeholders. -/
theorem claim4_witness :
    dGet (parse "nothing to see here") "answer" = some (.str "No answer provided.") ∧
    dGet (parse "nothing to see here") "background" =
      some (.str "No background information provided.") := by
  have h := (claim4_amended "nothing to see here").2
      (regexExtract "nothing to see here".data) (parse "nothing to see here") rfl rfl
  exact ⟨h.2.2 rfl, h.1 rfl⟩

/-- C5: every returned record has all six fields present, and citations
and further_reading are always lists (never absent, never another type);
in particular the input binding citations to a string gets the empty
list. -/
theorem claim5_fields_present_lists (s : String) :
    (dGet (parse s) "background").isSome ∧ (dGet (parse s) "reasoning").isSome ∧
    (dGet (parse s) "answer").isSome ∧ (dGet (parse s) "confidence").isSome ∧
    (∃ xs, dGet (parse s) "citations" = some (.arr xs)) ∧
    (∃ ys, dGet (parse s) "further_reading" = some (.arr ys)) ∧
    dGet (parse "\x7b\"citations\": \"not a list\"\x7d") "citations" = some (.arr []) := by
  exact ⟨parse_key_present s _ (by simp [requiredKeys]),
    parse_key_present s _ (by simp [requiredKeys]),
    parse_key_present s _ (by simp [requiredKeys]),
    parse_key_present s _ (by simp [requiredKeys]),
    parse_citations_arr s, parse_further_arr s, rfl⟩

/-- C6: scenario B — the input with an inline `//` comment and a trailing
comma is repaired (comment stripped, trailing comma removed), parses as
JSON, and yields background "B", answer "A", confidence capped from 1.5
to 1.0, and the reasoning placeholder. -/
theorem claim6_scenario_b :
    parse scenarioBInput =
      [("background", .str "B"), ("answer", .str "A"),
       ("confidence", .num (.fin 1)),
       ("reasoning", .str "No reasoning provided."),
       ("citations", .arr []), ("further_reading", .arr [])] := rfl

/-- C7 counterexample: serializing the parse output and re-feeding it
does not preserve the scalar fields in general — for the drift input the
first parse recovers the answer "x, ]" by regex, but on the re-fed
serialized text the trailing-comma repair rewrites the serialized value
to "x]" before the structured parse, so the answer drifts. -/
theorem claim7_counterexample :
    dGet (parse driftInput) "answer" = some (.str "x, ]") ∧
    dGet (parse (dumpRecord (parse driftInput))) "answer" = some (.str "x]") ∧
    ("x, ]" : String) ≠ "x]" := ⟨rfl, rfl, by decide⟩

/-- C7 amended: re-feeding the serialized record reproduces the entire
record (hence all scalar fields) provided the serialized text is left
unchanged by candidate extraction and by the syntax repair and loads back
as the same object; the counterexample shows the repair can otherwise
corrupt serialized values, so the unconditional claim fails. -/
theorem claim7_amended (s : String)
    (h1 : extractCandidate (dumpRecord (parse s)).data = (dumpRecord (parse s)).data)
    (h2 : repairCandidate (dumpRecord (parse s)).data = (dumpRecord (parse s)).data)
    (h3 : jsonLoads (dumpRecord (parse s)).data = .ok (.obj (parse s))) :
    parse (dumpRecord (parse s)) = parse s := by
  have hs : stageDict (dumpRecord (parse s)) = .ok (parse s) := by
    unfold stageDict
    rw [h1, h2, h3]
  have hkeys : ∀ k, k ∈ requiredKeys → (dGet (parse s) k).isSome :=
    fun k hk => parse_key_present s k hk
  have hdf : defaultFields (parse s) = parse s := defaultFields_id _ hkeys
  obtain ⟨c, hc, hg⟩ := parse_conf_good s
  have hnstr : ∀ t, c ≠ .str t := by
    rcases hg with ⟨q, rfl, -, -⟩ | rfl | ⟨b, rfl⟩ <;> intro t ht <;> exact Json.noConfusion ht
  have hcs : coerceConfStr (parse s) = parse s := coerceConfStr_of_not_str _ c hc hnstr
  have hcl : clampConf (parse s) = .ok (parse s) := clampConf_id _ c hc hg
  obtain ⟨xs, hx⟩ := parse_citations_arr s
  obtain ⟨ys, hy⟩ := parse_further_arr s
  have hco : coerceLists (parse s) = parse s := coerceLists_id _ xs ys hx hy
  have hclamp2 : clampConf (coerceConfStr (defaultFields (parse s))) = .ok (parse s) := by
    rw [hdf, hcs]
    exact hcl
  have hpi : parseInner (dumpRecord (parse s)) = .ok (coerceLists (parse s)) :=
    parseInner_of_stage_ok _ _ _ hs hclamp2
  rw [hco] at hpi
  exact parse_of_parseInner_ok _ _ hpi

/-- C7 witness: a well-formed completion whose serialization is untouched
by extraction and repair round-trips to the identical record. -/
theorem claim7_witness :
    parse (dumpRecord (parse stableInput)) = parse stableInput :=
  claim7_amended stableInput rfl rfl rfl

/-- C8: whenever the structured parse of the repaired candidate fails,
the recovered mapping is the regex extraction over the original raw
content (not the candidate); that extraction always sets citations and
further_reading to empty lists (nested recovery is never attempted), and
each unmatched flat field is left absent. -/
theorem claim8_regex_fallback (s e : String)
    (h : jsonLoads (repairCandidate (extractCandidate s.data)) = .error e) :
    stageDict s = .ok (regexExtract s.data) ∧
    dGet (regexExtract s.data) "citations" = some (.arr []) ∧
    dGet (regexExtract s.data) "further_reading" = some (.arr []) ∧
    (searchKeyQuoted "background".data s.data = none →
      dGet (regexExtract s.data) "background" = none) ∧
    (searchKeyQuoted "reasoning".data s.data = none →
      dGet (regexExtract s.data) "reasoning" = none) ∧
    (searchKeyQuoted "answer".data s.data = none →
      dGet (regexExtract s.data) "answer" = none) ∧
    (searchKeyNum "confidence".data s.data = none →
      dGet (regexExtract s.data) "confidence" = none) :=
  ⟨stageDict_of_loads_error s e h, regexExtract_citations s.data, regexExtract_further s.data,
    fun h2 => regexExtract_background_none s.data h2,
    fun h2 => regexExtract_reasoning_none s.data h2,
    fun h2 => regexExtract_answer_none s.data h2,
    fun h2 => regexExtract_confidence_none s.data h2⟩

/-- C8 witness: a garbled input whose structured parse fails falls back
to regex extraction on the original content, with empty citations and the
unmatched background left absent. -/
theorem claim8_witness :
    stageDict "status: incomplete \"answer\": \"A\"" =
      .ok (regexExtract "status: incomplete \"answer\": \"A\"".data) ∧
    dGet (regexExtract "status: incomplete \"answer\": \"A\"".data) "citations" =
      some (.arr []) ∧
    dGet (regexExtract "status: incomplete \"answer\": \"A\"".data) "background" = none := by
  have h := claim8_regex_fallback "status: incomplete \"answer\": \"A\"" "Expecting value" rfl
  exact ⟨h.1, h.2.1, h.2.2.2.1 rfl⟩

/-- C9: the comment repair deletes from each `//` to the end of its line,
even when the `//` lies inside a quoted value (shown in general for the
first comment of a line, with and without a following newline); as a
consequence a valid completion whose citation URL contains `//` loads as
JSON, yet its repaired candidate fails the structured parse, so the
record is rebuilt by the regex fallback and its citations are lost. -/
theorem claim9_comment_strip (pre post rest : List Char)
    (hpre : hasDS (pre ++ ['/']) = false) (hpost : '\n' ∉ post) :
    stripComments (pre ++ '/' :: '/' :: (post ++ '\n' :: rest)) =
      pre ++ '\n' :: stripComments rest ∧
    stripComments (pre ++ '/' :: '/' :: post) = pre ∧
    (∃ v, jsonLoads urlCompletion.data = .ok v) ∧
    (∃ e, jsonLoads (repairCandidate (extractCandidate urlCompletion.data)) = .error e) ∧
    dGet (parse urlCompletion) "citations" = some (.arr []) ∧
    dGet (parse urlCompletion) "answer" = some (.str "A") := by
  refine ⟨?_, ?_, ⟨_, rfl⟩, ⟨_, rfl⟩, rfl, rfl⟩
  · unfold stripComments
    rw [strip_false_comment pre (post ++ '\n' :: rest) hpre, strip_true_nl post rest hpost]
  · unfold stripComments
    rw [strip_false_comment pre post hpre, strip_true_all post hpost]
    simp

/-- C9 witness: the comment repair applied at concrete strings. -/
theorem claim9_witness :
    stripComments ("ab".data ++ '/' :: '/' :: ("cd".data ++ '\n' :: "ef".data)) =
      "ab".data ++ '\n' :: stripComments "ef".data ∧
    stripComments ("ab".data ++ '/' :: '/' :: "cd".data) = "ab".data := by
  have h := claim9_comment_strip "ab".data "cd".data "ef".data (by decide) (by decide)
  exact ⟨h.1, h.2.1⟩

/-- C10: when the repaired candidate loads as JSON that is not an object,
or as an object whose confidence is null, a list or an object, a later
step raises internally (`setdefault` on a non-dict, or an unsupported
comparison in the cap) and the catch-all returns the catastrophic
sentinel record — raw input as answer, confidence 0 — even though the
input contained parseable JSON. -/
theorem claim10_nonobject_or_bad_confidence (s : String) (v : Json)
    (h : jsonLoads (repairCandidate (extractCandidate s.data)) = .ok v) :
    ((∀ kvs, v ≠ .obj kvs) → ∃ e, parse s = catastrophic s e) ∧
    (∀ kvs c, v = .obj kvs → dGet kvs "confidence" = some c →
      (c = .null ∨ (∃ xs, c = .arr xs) ∨ ∃ kv, c = .obj kv) →
      ∃ e, parse s = catastrophic s e) := by
  constructor
  · intro hv
    obtain ⟨e, he⟩ := stageDict_of_loads_nonobj s v h hv
    exact ⟨e, parse_of_parseInner_error s e (parseInner_error_of_stage s e he)⟩
  · rintro kvs c rfl hc hbad
    have hs := stageDict_of_loads_obj s kvs h
    have hdf := dGet_defaultFields_conf kvs c hc
    have hnstr : ∀ t, c ≠ .str t := by
      rcases hbad with rfl | ⟨xs, rfl⟩ | ⟨kv, rfl⟩ <;> intro t ht <;> exact Json.noConfusion ht
    have hcs : coerceConfStr (defaultFields kvs) = defaultFields kvs :=
      coerceConfStr_of_not_str _ c hdf hnstr
    obtain ⟨e, he⟩ := clampConf_error_of_bad (defaultFields kvs) c hdf hbad
    refine ⟨e, parse_of_parseInner_error s e (parseInner_error_of_clamp s kvs e hs ?_)⟩
    rw [hcs]
    exact he

/-- C10 witness: a bare number input and a null confidence both produce
the catastrophic sentinel. -/
theorem claim10_witness :
    (∃ e, parse "5" = catastrophic "5" e) ∧
    (∃ e, parse "\x7b\"confidence\": null\x7d" =
      catastrophic "\x7b\"confidence\": null\x7d" e) :=
  ⟨(claim10_nonobject_or_bad_confidence "5" (.num (.fin (mkRat 5 1))) rfl).1
      (fun _ h2 => Json.noConfusion h2),
   (claim10_nonobject_or_bad_confidence "\x7b\"confidence\": null\x7d"
      (.obj [("confidence", .null)]) rfl).2 [("confidence", .null)] .null rfl rfl (Or.inl rfl)⟩

end Synaflow
